import Mathlib

/-!
Shallow embedding of the ESP32 temperature-station firmware
(`src/main.cpp`, Faisal-Elhouderi/Temperature-process-station).

Modelling conventions:
* `float` voltages are embedded as exact rationals `ℚ`; the C literals
  `3.3`, `0.1`, `1.5` become `33/10`, `1/10`, `3/2`.
* `unsigned long` millisecond timestamps are embedded as `ℕ`.  The C
  expressions `millis() - stepStartTime` and `currentTime - lastSampleTime`
  are 32-bit unsigned subtractions; since both minuends come from the same
  monotone clock that produced the subtrahends, they agree with truncated
  `ℕ` subtraction below the 2^32 wrap, which is how they are embedded.
* The SPIFFS data file is a `List Char` of its bytes.  Each file operation
  opens the file afresh, so each operation takes explicit `Bool` flags
  saying whether that particular open succeeds (`readOk`, `appendOk`,
  `writeOk`), mirroring the `if (file)` checks in the source.
* `Serial` output is pure text with no effect on program state and is not
  modelled.
-/

namespace TempStation

/-- `const unsigned long SAMPLING_INTERVAL_MS = 500;` -/
def SAMPLING_INTERVAL_MS : ℕ := 500

/-- `const float SETPOINT_VOLTAGE = 1.5;` -/
def SETPOINT_VOLTAGE : ℚ := 3/2

/-- `const unsigned long INITIAL_WAIT_MS = 3000;` -/
def INITIAL_WAIT_MS : ℕ := 3000

/-- `const size_t MAX_FILE_SIZE = 1000000;` -/
def MAX_FILE_SIZE : ℕ := 1000000

/-- The header line written by `initSPIFFS` and `clearDataFile`:
`file.println("timestamp_ms,setpoint_v,sensor_v")`.  Arduino `println`
terminates the line with CR LF. -/
def header : List Char := "timestamp_ms,setpoint_v,sensor_v\r\n".toList

/-- The mutable globals of `main.cpp` (the RunState of the spec). -/
structure RunState where
  lastSampleTime : ℕ
  stepStartTime : ℕ
  sampleCount : ℕ
  loggingEnabled : Bool
  stepApplied : Bool
  currentSetpoint : ℚ
deriving Repr, DecidableEq

/-- Whole observable state: the RunState globals plus the data file bytes. -/
structure Sys where
  rs : RunState
  file : List Char
deriving Repr, DecidableEq

/-- `adcToVoltage`: `return (adcValue / 4095.0) * 3.3;` -/
def adcToVoltage (adcValue : ℤ) : ℚ :=
  ((adcValue : ℚ) / 4095) * (33/10)

/-- The clamping prologue of `setSetpointVoltage`:
`if (voltage < 0) voltage = 0; if (voltage > 3.3) voltage = 3.3;` -/
def clampV (v : ℚ) : ℚ :=
  let v1 := if v < 0 then 0 else v
  if v1 > 33/10 then 33/10 else v1

/-- C-style `(int)` cast of a rational: truncation toward zero. -/
def ratTrunc (q : ℚ) : ℤ :=
  if 0 ≤ q then ⌊q⌋ else ⌈q⌉

/-- The DAC code computed by `setSetpointVoltage`:
`int dacValue = (int)((voltage / 3.3) * 255);` (applied to the clamped
voltage). -/
def dacValue (v : ℚ) : ℤ :=
  ratTrunc ((v / (33/10)) * 255)

/-- `setSetpointVoltage`: clamps, stores into `currentSetpoint`, and writes
the DAC (the DAC write itself has no further state effect). -/
def setSetpointVoltage (v : ℚ) (s : RunState) : RunState :=
  { s with currentSetpoint := clampV v }

/-- `applyStep`: `setSetpointVoltage(SETPOINT_VOLTAGE); stepApplied = true;` -/
def applyStep (s : RunState) : RunState :=
  { setSetpointVoltage SETPOINT_VOLTAGE s with stepApplied := true }

/-- One decimal digit character, as produced by `printf` for `%lu`. -/
def digitChar (d : ℕ) : Char :=
  match d % 10 with
  | 0 => '0' | 1 => '1' | 2 => '2' | 3 => '3' | 4 => '4'
  | 5 => '5' | 6 => '6' | 7 => '7' | 8 => '8' | _ => '9'

/-- Decimal digit string of a natural number, as `printf("%lu", n)` prints it. -/
def natDigits (n : ℕ) : List Char :=
  if n < 10 then [digitChar n]
  else natDigits (n / 10) ++ [digitChar (n % 10)]
decreasing_by exact Nat.div_lt_self (by omega) (by omega)

/-- Four digits with leading zeros (the fractional part of `%.4f`). -/
def pad4 (m : ℕ) : List Char :=
  [digitChar (m / 1000), digitChar (m / 100), digitChar (m / 10), digitChar m]

/-- `printf("%.4f", q)` for a nonnegative rational: round to the nearest
multiple of 1/10000 (half away from zero) and print integer part, a dot,
and four fractional digits. -/
def fmt4abs (q : ℚ) : List Char :=
  let n : ℕ := (⌊q * 10000 + 1/2⌋).toNat
  natDigits (n / 10000) ++ '.' :: pad4 (n % 10000)

/-- `printf("%.4f", q)` including the sign. -/
def fmt4 (q : ℚ) : List Char :=
  if q < 0 then '-' :: fmt4abs (-q) else fmt4abs q

/-- The bytes written by `file.printf("%lu,%.4f,%.4f\n", ...)` in `logData`:
one CSV line, terminated by a single LF. -/
def serializeRecord (t : ℕ) (sp sv : ℚ) : List Char :=
  natDigits t ++ ',' :: fmt4 sp ++ ',' :: fmt4 sv ++ ['\n']

/-- Number of newline bytes in a byte list (what the `printFileInfo` loop
counts with `if (file.read() == '\n') lines++;`). -/
def countNL (l : List Char) : ℕ :=
  l.countP (fun c => c = '\n')

/-- The sample count reported by `printFileInfo`:
`lines > 0 ? lines - 1 : 0` where `lines` is the newline count. -/
def recordCount (content : List Char) : ℕ :=
  let lines := countNL content
  if 0 < lines then lines - 1 else 0

/-- `logData(timestamp, setpoint, sensorVoltage)`.
`readOk` says whether the `FILE_READ` open for the size pre-check succeeds,
`appendOk` whether the `FILE_APPEND` open succeeds.  On capacity excess the
function warns, disables logging and returns without writing; on an append
open failure it only prints an error. -/
def logData (readOk appendOk : Bool) (timestamp : ℕ) (setpoint sensorVoltage : ℚ)
    (s : Sys) : Sys :=
  if readOk = true ∧ MAX_FILE_SIZE ≤ s.file.length then
    { s with rs := { s.rs with loggingEnabled := false } }
  else if appendOk = true then
    { s with file := s.file ++ serializeRecord timestamp setpoint sensorVoltage }
  else s

/-- `clearDataFile()`: reopen with `FILE_WRITE` (truncating), rewrite the
header, reset `sampleCount`; on open failure only an error is printed. -/
def clearDataFile (writeOk : Bool) (s : Sys) : Sys :=
  if writeOk = true then
    { rs := { s.rs with sampleCount := 0 }, file := header }
  else s

/-- The external inputs consumed by one iteration of `loop()`: the at most
one serial command byte, the `millis()` clock value, the raw `analogRead`
value, and the success of each kind of file open attempted this iteration. -/
structure Input where
  cmd : Option Char
  now : ℕ
  adc : ℤ
  readOk : Bool
  appendOk : Bool
  writeOk : Bool
deriving Repr, DecidableEq

/-- The `switch (cmd)` of `loop()`, one arm per `case` label; unmatched
characters fall through with no effect. -/
def handleCmd (inp : Input) (s : Sys) : Sys :=
  match inp.cmd with
  | none => s
  | some 'g' | some 'G' =>
    if s.rs.stepApplied = false then
      let s1 := clearDataFile inp.writeOk s
      { s1 with rs := { s1.rs with loggingEnabled := true, stepStartTime := inp.now } }
    else s
  | some 'r' | some 'R' =>
    { s with rs := { setSetpointVoltage 0 s.rs with
                      stepApplied := false, loggingEnabled := false, sampleCount := 0 } }
  | some 'p' | some 'P' =>
    { s with rs := { s.rs with loggingEnabled := false } }
  | some 'c' | some 'C' =>
    clearDataFile inp.writeOk s
  | some 'i' | some 'I' => s
  | some 's' | some 'S' =>
    { s with rs := { s.rs with loggingEnabled := !s.rs.loggingEnabled } }
  | some 'v' | some 'V' => s
  | some 'h' | some 'H' | some '?' => s
  | some '+' =>
    let c1 := s.rs.currentSetpoint + 1/10
    let c2 := if c1 > 33/10 then (33/10 : ℚ) else c1
    { s with rs := setSetpointVoltage c2 { s.rs with currentSetpoint := c2 } }
  | some '-' =>
    let c1 := s.rs.currentSetpoint - 1/10
    let c2 := if c1 < 0 then (0 : ℚ) else c1
    { s with rs := setSetpointVoltage c2 { s.rs with currentSetpoint := c2 } }
  | some _ => s

/-- The guard of the step-application block of `loop()`:
`loggingEnabled && !stepApplied && (millis() - stepStartTime >= INITIAL_WAIT_MS)`. -/
def stepGuard (now : ℕ) (rs : RunState) : Bool :=
  rs.loggingEnabled && !rs.stepApplied && decide (INITIAL_WAIT_MS ≤ now - rs.stepStartTime)

/-- The step-application block of `loop()`. -/
def stepPhase (now : ℕ) (s : Sys) : Sys :=
  if stepGuard now s.rs then { s with rs := applyStep s.rs } else s

/-- The sampling block of `loop()`: on a due tick it stamps
`lastSampleTime`, reads the sensor, calls `logData`, and then increments
`sampleCount` unconditionally. -/
def samplePhase (inp : Input) (s : Sys) : Sys :=
  if s.rs.loggingEnabled && decide (SAMPLING_INTERVAL_MS ≤ inp.now - s.rs.lastSampleTime) then
    let rs1 := { s.rs with lastSampleTime := inp.now }
    let relativeTime := inp.now - rs1.stepStartTime
    let sensorVoltage := adcToVoltage inp.adc
    let s1 := logData inp.readOk inp.appendOk relativeTime rs1.currentSetpoint sensorVoltage
                { s with rs := rs1 }
    { s1 with rs := { s1.rs with sampleCount := s1.rs.sampleCount + 1 } }
  else s

/-- One full iteration of `loop()`: command dispatch, then the step block,
then the sampling block. -/
def loopStep (inp : Input) (s : Sys) : Sys :=
  samplePhase inp (stepPhase inp.now (handleCmd inp s))

/-- Run a sequence of loop iterations. -/
def run (inps : List Input) (s : Sys) : Sys :=
  inps.foldl (fun a i => loopStep i a) s

/-- State after `setup()`: globals at their initializers,
`setSetpointVoltage(0.0)` applied, data file freshly created with header. -/
def initState : Sys :=
  { rs := { lastSampleTime := 0, stepStartTime := 0, sampleCount := 0,
            loggingEnabled := false, stepApplied := false, currentSetpoint := 0 },
    file := header }

/-- Whether the iteration driven by `inp` from state `s` fires the
BASELINE → STEPPED transition (the step guard evaluated where `loop()`
evaluates it, after command dispatch). -/
def stepFires (inp : Input) (s : Sys) : Bool :=
  stepGuard inp.now (handleCmd inp s).rs

/-- Whether any iteration of the given input sequence fires the
BASELINE → STEPPED transition. -/
def firesDuring (inps : List Input) (s : Sys) : Bool :=
  match inps with
  | [] => false
  | i :: rest => stepFires i s || firesDuring rest (loopStep i s)

/-- The pinned-setpoint invariant of spec § 3: `stepApplied` implies
`currentSetpoint == SETPOINT_VOLTAGE`. -/
def Pinned (s : Sys) : Prop :=
  s.rs.stepApplied = true → s.rs.currentSetpoint = SETPOINT_VOLTAGE

/-- Along the run of an input sequence, no manual `+`/`-` setpoint command
is issued at a point where the step has already been applied. -/
def NoManualAfterStep : List Input → Sys → Prop
  | [], _ => True
  | i :: rest, s =>
    (s.rs.stepApplied = true → (i.cmd ≠ some '+' ∧ i.cmd ≠ some '-')) ∧
    NoManualAfterStep rest (loopStep i s)

/-! ### Basic lemmas about the serialized record -/

lemma digitChar_ne_newline (d : ℕ) : digitChar d ≠ '\n' := by
  unfold digitChar
  rcases h : d % 10 with _ | _ | _ | _ | _ | _ | _ | _ | _ | k <;> simp

lemma countNL_append (a b : List Char) : countNL (a ++ b) = countNL a + countNL b := by
  simp [countNL, List.countP_append]

lemma countNL_natDigits (n : ℕ) : countNL (natDigits n) = 0 := by
  induction n using Nat.strong_induction_on with
  | _ n ih =>
    rw [natDigits]
    split
    · simp [countNL, List.countP_cons, digitChar_ne_newline]
    · rw [countNL_append, ih (n / 10) (Nat.div_lt_self (by omega) (by omega))]
      simp [countNL, List.countP_cons, digitChar_ne_newline]

lemma countNL_pad4 (m : ℕ) : countNL (pad4 m) = 0 := by
  simp [pad4, countNL, List.countP_cons, digitChar_ne_newline]

lemma countNL_fmt4abs (q : ℚ) : countNL (fmt4abs q) = 0 := by
  unfold fmt4abs
  rw [countNL_append, countNL_natDigits]
  simpa [countNL, List.countP_cons] using countNL_pad4 _

lemma countNL_fmt4 (q : ℚ) : countNL (fmt4 q) = 0 := by
  unfold fmt4
  split
  · simpa [countNL, List.countP_cons] using countNL_fmt4abs (-q)
  · exact countNL_fmt4abs q

/-- A serialized record is exactly one line: it contains exactly one LF,
the terminator written by `file.printf("%lu,%.4f,%.4f\n", ...)`. -/
lemma countNL_serializeRecord (t : ℕ) (sp sv : ℚ) :
    countNL (serializeRecord t sp sv) = 1 := by
  have h0 := countNL_natDigits t
  have h1 := countNL_fmt4 sp
  have h2 := countNL_fmt4 sv
  unfold countNL at h0 h1 h2 ⊢
  unfold serializeRecord
  simp [List.countP_append, List.countP_cons, h0, h1, h2]

/-! ### Clamping lemmas -/

lemma clampV_nonneg (v : ℚ) : 0 ≤ clampV v := by
  unfold clampV
  dsimp only
  split_ifs <;> linarith

lemma clampV_le (v : ℚ) : clampV v ≤ 33/10 := by
  unfold clampV
  dsimp only
  split_ifs <;> linarith

lemma clampV_eq_self (v : ℚ) (h0 : 0 ≤ v) (h1 : v ≤ 33/10) : clampV v = v := by
  unfold clampV
  dsimp only
  split_ifs <;> linarith

/-! ### Field-preservation lemmas for the file operations -/

lemma logData_currentSetpoint (ro ao : Bool) (t : ℕ) (sp sv : ℚ) (s : Sys) :
    (logData ro ao t sp sv s).rs.currentSetpoint = s.rs.currentSetpoint := by
  unfold logData; split_ifs <;> rfl

lemma logData_stepApplied (ro ao : Bool) (t : ℕ) (sp sv : ℚ) (s : Sys) :
    (logData ro ao t sp sv s).rs.stepApplied = s.rs.stepApplied := by
  unfold logData; split_ifs <;> rfl

lemma logData_sampleCount (ro ao : Bool) (t : ℕ) (sp sv : ℚ) (s : Sys) :
    (logData ro ao t sp sv s).rs.sampleCount = s.rs.sampleCount := by
  unfold logData; split_ifs <;> rfl

lemma logData_lastSampleTime (ro ao : Bool) (t : ℕ) (sp sv : ℚ) (s : Sys) :
    (logData ro ao t sp sv s).rs.lastSampleTime = s.rs.lastSampleTime := by
  unfold logData; split_ifs <;> rfl

lemma logData_stepStartTime (ro ao : Bool) (t : ℕ) (sp sv : ℚ) (s : Sys) :
    (logData ro ao t sp sv s).rs.stepStartTime = s.rs.stepStartTime := by
  unfold logData; split_ifs <;> rfl

lemma clearDataFile_stepApplied (w : Bool) (s : Sys) :
    (clearDataFile w s).rs.stepApplied = s.rs.stepApplied := by
  unfold clearDataFile; split_ifs <;> rfl

lemma clearDataFile_currentSetpoint (w : Bool) (s : Sys) :
    (clearDataFile w s).rs.currentSetpoint = s.rs.currentSetpoint := by
  unfold clearDataFile; split_ifs <;> rfl

/-! ### Field-preservation lemmas for the phases of `loop()` -/

lemma samplePhase_currentSetpoint (inp : Input) (s : Sys) :
    (samplePhase inp s).rs.currentSetpoint = s.rs.currentSetpoint := by
  unfold samplePhase
  split
  · simp [logData_currentSetpoint]
  · rfl

lemma samplePhase_stepApplied (inp : Input) (s : Sys) :
    (samplePhase inp s).rs.stepApplied = s.rs.stepApplied := by
  unfold samplePhase
  split
  · simp [logData_stepApplied]
  · rfl

lemma samplePhase_stepStartTime (inp : Input) (s : Sys) :
    (samplePhase inp s).rs.stepStartTime = s.rs.stepStartTime := by
  unfold samplePhase
  split
  · simp [logData_stepStartTime]
  · rfl

lemma stepPhase_of_guard_false (now : ℕ) (s : Sys) (h : stepGuard now s.rs = false) :
    stepPhase now s = s := by
  unfold stepPhase
  simp [h]

lemma stepPhase_of_guard_true (now : ℕ) (s : Sys) (h : stepGuard now s.rs = true) :
    stepPhase now s = { s with rs := applyStep s.rs } := by
  unfold stepPhase
  simp [h]

lemma stepPhase_of_stepApplied (now : ℕ) (s : Sys) (h : s.rs.stepApplied = true) :
    stepPhase now s = s := by
  apply stepPhase_of_guard_false
  simp [stepGuard, h]

/-! ### The pinned-setpoint invariant (spec § 3): once the step has fired,
`currentSetpoint` equals the target setpoint. -/

lemma clampV_setpoint : clampV SETPOINT_VOLTAGE = SETPOINT_VOLTAGE := by
  apply clampV_eq_self <;> norm_num [SETPOINT_VOLTAGE]

lemma handleCmd_pinned (inp : Input) (s : Sys)
    (h1 : inp.cmd ≠ some '+') (h2 : inp.cmd ≠ some '-')
    (hP : Pinned s) : Pinned (handleCmd inp s) := by
  unfold handleCmd
  split
  -- none
  · exact hP
  -- 'g'
  · intro h
    by_cases hc : s.rs.stepApplied = false
    · rw [if_pos hc] at h
      simp [clearDataFile_stepApplied, hc] at h
    · rw [if_neg hc] at h ⊢
      exact hP h
  -- 'G'
  · intro h
    by_cases hc : s.rs.stepApplied = false
    · rw [if_pos hc] at h
      simp [clearDataFile_stepApplied, hc] at h
    · rw [if_neg hc] at h ⊢
      exact hP h
  -- 'r'
  · intro h
    simp at h
  -- 'R'
  · intro h
    simp at h
  -- 'p'
  · exact hP
  -- 'P'
  · exact hP
  -- 'c'
  · intro h
    simp only [clearDataFile_stepApplied] at h
    show (clearDataFile inp.writeOk s).rs.currentSetpoint = SETPOINT_VOLTAGE
    rw [clearDataFile_currentSetpoint]
    exact hP h
  -- 'C'
  · intro h
    simp only [clearDataFile_stepApplied] at h
    show (clearDataFile inp.writeOk s).rs.currentSetpoint = SETPOINT_VOLTAGE
    rw [clearDataFile_currentSetpoint]
    exact hP h
  -- 'i'
  · exact hP
  -- 'I'
  · exact hP
  -- 's'
  · exact hP
  -- 'S'
  · exact hP
  -- 'v'
  · exact hP
  -- 'V'
  · exact hP
  -- 'h'
  · exact hP
  -- 'H'
  · exact hP
  -- '?'
  · exact hP
  -- '+'
  · simp_all
  -- '-'
  · simp_all
  -- default
  · exact hP

lemma stepPhase_pinned (now : ℕ) (s : Sys) (hP : Pinned s) :
    Pinned (stepPhase now s) := by
  cases hg : stepGuard now s.rs
  · rw [stepPhase_of_guard_false _ _ hg]
    exact hP
  · rw [stepPhase_of_guard_true _ _ hg]
    intro h
    show (applyStep s.rs).currentSetpoint = SETPOINT_VOLTAGE
    simp [applyStep, setSetpointVoltage, clampV_setpoint]

lemma samplePhase_pinned (inp : Input) (s : Sys) (hP : Pinned s) :
    Pinned (samplePhase inp s) := by
  intro h
  rw [samplePhase_stepApplied] at h
  rw [samplePhase_currentSetpoint]
  exact hP h

lemma loopStep_pinned (inp : Input) (s : Sys)
    (h1 : inp.cmd ≠ some '+') (h2 : inp.cmd ≠ some '-')
    (hP : Pinned s) : Pinned (loopStep inp s) :=
  samplePhase_pinned _ _ (stepPhase_pinned _ _ (handleCmd_pinned inp s h1 h2 hP))

lemma handleCmd_stepApplied_false (inp : Input) (s : Sys)
    (h : s.rs.stepApplied = false) : (handleCmd inp s).rs.stepApplied = false := by
  unfold handleCmd
  split
  · exact h
  · rw [if_pos h]
    simp only [clearDataFile_stepApplied]
    exact h
  · rw [if_pos h]
    simp only [clearDataFile_stepApplied]
    exact h
  · rfl
  · rfl
  · exact h
  · exact h
  · rw [clearDataFile_stepApplied]
    exact h
  · rw [clearDataFile_stepApplied]
    exact h
  · exact h
  · exact h
  · exact h
  · exact h
  · exact h
  · exact h
  · exact h
  · exact h
  · exact h
  · exact h
  · exact h
  · exact h

lemma loopStep_pinned_cond (inp : Input) (s : Sys)
    (h : s.rs.stepApplied = true → (inp.cmd ≠ some '+' ∧ inp.cmd ≠ some '-'))
    (hP : Pinned s) : Pinned (loopStep inp s) := by
  by_cases hstep : s.rs.stepApplied = true
  · exact loopStep_pinned inp s (h hstep).1 (h hstep).2 hP
  · have hF : s.rs.stepApplied = false := eq_false_of_ne_true hstep
    have h1 := handleCmd_stepApplied_false inp s hF
    exact samplePhase_pinned _ _ (stepPhase_pinned _ _
      (fun hh => absurd hh (by simp [h1])))

lemma run_pinned_cond (inps : List Input) :
    ∀ s : Sys, NoManualAfterStep inps s →
    Pinned s → Pinned (run inps s) := by
  induction inps with
  | nil => exact fun s _ hP => hP
  | cons i rest ih =>
    intro s hall hP
    have hrun : run (i :: rest) s = run rest (loopStep i s) := rfl
    rw [hrun]
    exact ih _ hall.2 (loopStep_pinned_cond i s hall.1 hP)

/-! ### `stepApplied` persists until an explicit reset -/

lemma handleCmd_stepApplied_of_true (inp : Input) (s : Sys)
    (h1 : inp.cmd ≠ some 'r') (h2 : inp.cmd ≠ some 'R')
    (h : s.rs.stepApplied = true) : (handleCmd inp s).rs.stepApplied = true := by
  unfold handleCmd
  split
  -- none
  · exact h
  -- 'g'
  · rw [if_neg (by simp [h])]
    exact h
  -- 'G'
  · rw [if_neg (by simp [h])]
    exact h
  -- 'r'
  · simp_all
  -- 'R'
  · simp_all
  -- 'p'
  · exact h
  -- 'P'
  · exact h
  -- 'c'
  · rw [clearDataFile_stepApplied]
    exact h
  -- 'C'
  · rw [clearDataFile_stepApplied]
    exact h
  -- 'i'
  · exact h
  -- 'I'
  · exact h
  -- 's'
  · exact h
  -- 'S'
  · exact h
  -- 'v'
  · exact h
  -- 'V'
  · exact h
  -- 'h'
  · exact h
  -- 'H'
  · exact h
  -- '?'
  · exact h
  -- '+'
  · exact h
  -- '-'
  · exact h
  -- default
  · exact h

lemma loopStep_stepApplied_of_true (inp : Input) (s : Sys)
    (h1 : inp.cmd ≠ some 'r') (h2 : inp.cmd ≠ some 'R')
    (h : s.rs.stepApplied = true) : (loopStep inp s).rs.stepApplied = true := by
  unfold loopStep
  rw [samplePhase_stepApplied]
  rw [stepPhase_of_stepApplied _ _ (handleCmd_stepApplied_of_true inp s h1 h2 h)]
  exact handleCmd_stepApplied_of_true inp s h1 h2 h

lemma stepFires_false_of_stepApplied (inp : Input) (s : Sys)
    (h1 : inp.cmd ≠ some 'r') (h2 : inp.cmd ≠ some 'R')
    (h : s.rs.stepApplied = true) : stepFires inp s = false := by
  unfold stepFires
  simp [stepGuard, handleCmd_stepApplied_of_true inp s h1 h2 h]

lemma run_stepApplied_of_true (inps : List Input) :
    ∀ s : Sys, s.rs.stepApplied = true →
    (∀ i ∈ inps, i.cmd ≠ some 'r' ∧ i.cmd ≠ some 'R') →
    (run inps s).rs.stepApplied = true ∧ firesDuring inps s = false := by
  induction inps with
  | nil => exact fun s h _ => ⟨h, rfl⟩
  | cons i rest ih =>
    intro s h hall
    have hi := hall i (by simp)
    have hnext := loopStep_stepApplied_of_true i s hi.1 hi.2 h
    have hrest := ih (loopStep i s) hnext (fun j hj => hall j (by simp [hj]))
    refine ⟨hrest.1, ?_⟩
    show (stepFires i s || firesDuring rest (loopStep i s)) = false
    rw [stepFires_false_of_stepApplied i s hi.1 hi.2 h, hrest.2]
    rfl

/-! ## Claim theorems -/

/-- C3: every call of `logData` with a successful size query (`FILE_READ`
open succeeds) first checks the current file size: if it is at least
`MAX_FILE_SIZE` it disables logging and returns with the file untouched;
otherwise (and when the append open succeeds) it appends exactly one
serialized record line — a single chunk containing exactly one newline. -/
theorem logData_capacity_contract : ∀ (ao : Bool) (t : ℕ) (sp sv : ℚ) (s : Sys),
    (MAX_FILE_SIZE ≤ s.file.length →
      logData true ao t sp sv s =
        { s with rs := { s.rs with loggingEnabled := false } }) ∧
    (s.file.length < MAX_FILE_SIZE → ao = true →
      logData true ao t sp sv s = { s with file := s.file ++ serializeRecord t sp sv } ∧
      countNL (serializeRecord t sp sv) = 1) := by
  intro ao t sp sv s
  constructor
  · intro hcap
    unfold logData
    rw [if_pos ⟨rfl, hcap⟩]
  · intro hlt hao
    refine ⟨?_, countNL_serializeRecord t sp sv⟩
    unfold logData
    rw [if_neg (by simp only [not_and]; intro; omega), if_pos hao]

/-- C3 witness: at capacity the record is refused and logging disabled; on a
small file exactly one line is appended. -/
theorem logData_capacity_contract_witness :
    logData true true 0 0 0 { rs := initState.rs, file := List.replicate 1000000 'a' } =
      { rs := { initState.rs with loggingEnabled := false },
        file := List.replicate 1000000 'a' } ∧
    logData true true 0 0 0 initState =
      { initState with file := header ++ serializeRecord 0 0 0 } ∧
    countNL (serializeRecord 0 0 0) = 1 := by
  have h1 := (logData_capacity_contract true 0 0 0
    { rs := initState.rs, file := List.replicate 1000000 'a' }).1
    (by rw [List.length_replicate]; norm_num [MAX_FILE_SIZE])
  have h2 := (logData_capacity_contract true 0 0 0 initState).2
    (by decide) rfl
  exact ⟨h1, h2.1, h2.2⟩

/-- C6: `clearDataFile` is idempotent — after either of two consecutive
(successful) clears the file is header-only and `sampleCount` is `0`, and
the second clear changes nothing. -/
theorem clear_idempotent : ∀ (s : Sys) (w1 w2 : Bool), w1 = true → w2 = true →
    clearDataFile w2 (clearDataFile w1 s) = clearDataFile w1 s ∧
    (clearDataFile w1 s).file = header ∧
    (clearDataFile w1 s).rs.sampleCount = 0 ∧
    (clearDataFile w2 (clearDataFile w1 s)).file = header ∧
    (clearDataFile w2 (clearDataFile w1 s)).rs.sampleCount = 0 := by
  intro s w1 w2 h1 h2
  subst h1
  subst h2
  unfold clearDataFile
  exact ⟨rfl, rfl, rfl, rfl, rfl⟩

/-- C6 witness: consecutive clears from the initial state. -/
theorem clear_idempotent_witness :
    clearDataFile true (clearDataFile true initState) = clearDataFile true initState ∧
    (clearDataFile true initState).file = header ∧
    (clearDataFile true initState).rs.sampleCount = 0 ∧
    (clearDataFile true (clearDataFile true initState)).file = header ∧
    (clearDataFile true (clearDataFile true initState)).rs.sampleCount = 0 :=
  clear_idempotent initState true true rfl rfl

/-- C7: for raw readings in `[0, 4095]`, `adcToVoltage r = r / 4095 * 3.3`
and `adcToVoltage` is monotonically non-decreasing. -/
theorem adcToVoltage_contract : ∀ r : ℤ, 0 ≤ r → r ≤ 4095 →
    (adcToVoltage r = (r : ℚ) / 4095 * (33/10) ∧
     ∀ r2 : ℤ, r ≤ r2 → r2 ≤ 4095 → adcToVoltage r ≤ adcToVoltage r2) := by
  intro r h0 h4
  refine ⟨rfl, ?_⟩
  intro r2 h12 h24
  unfold adcToVoltage
  have hc : (r : ℚ) ≤ (r2 : ℚ) := by exact_mod_cast h12
  gcongr

/-- C7 witness: evaluation at raw readings 100 and 200. -/
theorem adcToVoltage_contract_witness :
    adcToVoltage 100 = (100 : ℚ) / 4095 * (33/10) ∧
    adcToVoltage 100 ≤ adcToVoltage 200 := by
  have h := adcToVoltage_contract 100 (by norm_num) (by norm_num)
  exact ⟨h.1, h.2 200 (by norm_num) (by norm_num)⟩

/-- C9: `printFileInfo` reports the newline count minus one for the header,
and a file with at most one newline reports zero records; the reported
count never exceeds the newline count (no wrap-around below zero). -/
theorem recordCount_contract : ∀ content : List Char,
    (0 < countNL content → recordCount content = countNL content - 1) ∧
    (countNL content ≤ 1 → recordCount content = 0) ∧
    recordCount content ≤ countNL content := by
  intro content
  unfold recordCount
  dsimp only
  refine ⟨fun h => if_pos h, fun h => ?_, ?_⟩
  · split_ifs with h0
    · omega
    · rfl
  · split_ifs <;> omega

/-- C9 witness: the header-only file has one newline and zero records. -/
theorem recordCount_contract_witness :
    (0 < countNL header → recordCount header = countNL header - 1) ∧
    recordCount header = 0 := by
  have h := recordCount_contract header
  exact ⟨h.1, h.2.1 (by decide)⟩

/-- C10 (implicit): when the `FILE_READ` open for the size query fails,
`logData` skips the capacity check entirely and still appends, so a record
is written even though the file is already at or above `MAX_FILE_SIZE`. -/
theorem capacity_check_skipped_on_read_fail : ∀ (t : ℕ) (sp sv : ℚ) (s : Sys),
    MAX_FILE_SIZE ≤ s.file.length →
    logData false true t sp sv s =
      { s with file := s.file ++ serializeRecord t sp sv } := by
  intro t sp sv s hcap
  unfold logData
  rw [if_neg (by simp), if_pos rfl]

/-- C4: a `go` command with no step yet applied clears the data file
(header only, `sampleCount` reset), enables logging and records the start
time; a `go` with the step already applied changes nothing at all. -/
theorem go_command_contract : ∀ (inp : Input) (s : Sys),
    (inp.cmd = some 'g' ∨ inp.cmd = some 'G') →
    ((s.rs.stepApplied = false → inp.writeOk = true →
        handleCmd inp s =
          { rs := { s.rs with
                      sampleCount := 0
                      loggingEnabled := true
                      stepStartTime := inp.now }
            file := header }) ∧
     (s.rs.stepApplied = true → handleCmd inp s = s)) := by
  intro inp s hc
  obtain ⟨cmd, now, adc, ro, ao, wo⟩ := inp
  constructor
  · intro hstep hw
    simp only at hw
    subst hw
    rcases hc with hg | hg <;> simp only at hg <;> subst hg <;>
      simp [handleCmd, clearDataFile, hstep]
  · intro hstep
    rcases hc with hg | hg <;> simp only at hg <;> subst hg <;>
      simp [handleCmd, hstep]

/-- C4 witness: `go` from the initial state starts a run; `go` again after
the step has fired is rejected unchanged. -/
theorem go_command_contract_witness :
    handleCmd ⟨some 'g', 42, 0, true, true, true⟩ initState =
      { rs := { initState.rs with
                  sampleCount := 0
                  loggingEnabled := true
                  stepStartTime := 42 }
        file := header } ∧
    handleCmd ⟨some 'g', 42, 0, true, true, true⟩
        { rs := { initState.rs with stepApplied := true }, file := header } =
      { rs := { initState.rs with stepApplied := true }, file := header } := by
  constructor
  · exact (go_command_contract ⟨some 'g', 42, 0, true, true, true⟩ initState
      (Or.inl rfl)).1 rfl rfl
  · exact (go_command_contract ⟨some 'g', 42, 0, true, true, true⟩
      { rs := { initState.rs with stepApplied := true }, file := header }
      (Or.inl rfl)).2 rfl

lemma handleCmd_plus_setpoint (inp : Input) (s : Sys) (hc : inp.cmd = some '+') :
    (handleCmd inp s).rs.currentSetpoint =
      clampV (if s.rs.currentSetpoint + 1/10 > 33/10 then (33/10 : ℚ)
              else s.rs.currentSetpoint + 1/10) := by
  obtain ⟨cmd, now, adc, ro, ao, wo⟩ := inp
  simp only at hc
  subst hc
  rfl

lemma handleCmd_minus_setpoint (inp : Input) (s : Sys) (hc : inp.cmd = some '-') :
    (handleCmd inp s).rs.currentSetpoint =
      clampV (if s.rs.currentSetpoint - 1/10 < 0 then (0 : ℚ)
              else s.rs.currentSetpoint - 1/10) := by
  obtain ⟨cmd, now, adc, ro, ao, wo⟩ := inp
  simp only at hc
  subst hc
  rfl

/-- C8: `setSetpointVoltage` stores the setpoint clamped to `[0, 3.3]`, the
DAC code is monotonically non-decreasing on clamped (nonnegative) values,
and the `+`/`-` commands move `currentSetpoint` by `±0.1` V clamped to
`[0, 3.3]`. -/
theorem setpoint_adjust_contract :
    (∀ (rs : RunState) (v : ℚ),
       (setSetpointVoltage v rs).currentSetpoint = clampV v ∧
       0 ≤ clampV v ∧ clampV v ≤ 33/10) ∧
    (∀ x y : ℚ, 0 ≤ x → x ≤ y → dacValue x ≤ dacValue y) ∧
    (∀ (inp : Input) (s : Sys), inp.cmd = some '+' →
       0 ≤ s.rs.currentSetpoint → s.rs.currentSetpoint ≤ 33/10 →
       (handleCmd inp s).rs.currentSetpoint = min (s.rs.currentSetpoint + 1/10) (33/10) ∧
       0 ≤ (handleCmd inp s).rs.currentSetpoint ∧
       (handleCmd inp s).rs.currentSetpoint ≤ 33/10) ∧
    (∀ (inp : Input) (s : Sys), inp.cmd = some '-' →
       0 ≤ s.rs.currentSetpoint → s.rs.currentSetpoint ≤ 33/10 →
       (handleCmd inp s).rs.currentSetpoint = max (s.rs.currentSetpoint - 1/10) 0 ∧
       0 ≤ (handleCmd inp s).rs.currentSetpoint ∧
       (handleCmd inp s).rs.currentSetpoint ≤ 33/10) := by
  refine ⟨fun rs v => ⟨rfl, clampV_nonneg v, clampV_le v⟩, ?_, ?_, ?_⟩
  · intro x y hx hxy
    have hx' : (0:ℚ) ≤ x / (33/10) * 255 :=
      mul_nonneg (div_nonneg hx (by norm_num)) (by norm_num)
    have hy' : (0:ℚ) ≤ y / (33/10) * 255 :=
      mul_nonneg (div_nonneg (hx.trans hxy) (by norm_num)) (by norm_num)
    unfold dacValue ratTrunc
    rw [if_pos hx', if_pos hy']
    apply Int.floor_le_floor
    gcongr
  · intro inp s hc h0 h1
    rw [handleCmd_plus_setpoint inp s hc]
    refine ⟨?_, clampV_nonneg _, clampV_le _⟩
    by_cases hb : s.rs.currentSetpoint + 1/10 > 33/10
    · rw [if_pos hb, clampV_eq_self _ (by norm_num) (by norm_num)]
      exact (min_eq_right (le_of_lt hb)).symm
    · rw [if_neg hb, clampV_eq_self _ (by linarith) (not_lt.mp hb)]
      exact (min_eq_left (not_lt.mp hb)).symm
  · intro inp s hc h0 h1
    rw [handleCmd_minus_setpoint inp s hc]
    refine ⟨?_, clampV_nonneg _, clampV_le _⟩
    by_cases hb : s.rs.currentSetpoint - 1/10 < 0
    · rw [if_pos hb, clampV_eq_self _ (le_refl 0) (by norm_num)]
      exact (max_eq_right (le_of_lt hb)).symm
    · rw [if_neg hb, clampV_eq_self _ (not_lt.mp hb) (by linarith)]
      exact (max_eq_left (not_lt.mp hb)).symm

/-- C8 witness: clamping an over-range request, DAC monotonicity at 1 ≤ 2,
and `+`/`-` from a 1.5 V setpoint. -/
theorem setpoint_adjust_contract_witness :
    ((setSetpointVoltage 5 initState.rs).currentSetpoint = clampV 5 ∧
     0 ≤ clampV 5 ∧ clampV 5 ≤ 33/10) ∧
    dacValue 1 ≤ dacValue 2 ∧
    (handleCmd ⟨some '+', 0, 0, true, true, true⟩
        { rs := { initState.rs with currentSetpoint := 3/2 }, file := header }
      ).rs.currentSetpoint = min ((3:ℚ)/2 + 1/10) (33/10) ∧
    (handleCmd ⟨some '-', 0, 0, true, true, true⟩
        { rs := { initState.rs with currentSetpoint := 3/2 }, file := header }
      ).rs.currentSetpoint = max ((3:ℚ)/2 - 1/10) 0 := by
  obtain ⟨h1, h2, h3, h4⟩ := setpoint_adjust_contract
  refine ⟨h1 initState.rs 5, h2 1 2 (by norm_num) (by norm_num), ?_, ?_⟩
  · exact (h3 ⟨some '+', 0, 0, true, true, true⟩
      { rs := { initState.rs with currentSetpoint := 3/2 }, file := header }
      rfl (by norm_num) (by norm_num)).1
  · exact (h4 ⟨some '-', 0, 0, true, true, true⟩
      { rs := { initState.rs with currentSetpoint := 3/2 }, file := header }
      rfl (by norm_num) (by norm_num)).1

/-- C10 witness: a file already at the ceiling still receives an appended
record when the size-query open fails. -/
theorem capacity_check_skipped_on_read_fail_witness :
    logData false true 0 0 0 { rs := initState.rs, file := List.replicate 1000000 'a' } =
      { rs := initState.rs,
        file := List.replicate 1000000 'a' ++ serializeRecord 0 0 0 } :=
  capacity_check_skipped_on_read_fail 0 0 0
    { rs := initState.rs, file := List.replicate 1000000 'a' }
    (by rw [List.length_replicate]; norm_num [MAX_FILE_SIZE])

lemma samplePhase_append_fail (inp : Input) (s : Sys)
    (hlog : s.rs.loggingEnabled = true)
    (hdue : SAMPLING_INTERVAL_MS ≤ inp.now - s.rs.lastSampleTime)
    (hao : inp.appendOk = false)
    (hcap : ¬(inp.readOk = true ∧ MAX_FILE_SIZE ≤ s.file.length)) :
    samplePhase inp s =
      { s with rs := { s.rs with
                       lastSampleTime := inp.now
                       sampleCount := s.rs.sampleCount + 1 } } := by
  unfold samplePhase
  rw [if_pos (by simp [hlog, hdue])]
  dsimp only
  unfold logData
  rw [if_neg (by simpa using hcap), if_neg (by simp [hao])]

/-- C1 (as stated) is false: after `go` and the step firing, a single `+`
command leaves `stepApplied == true` while moving `currentSetpoint` to
1.6 V, no reset having occurred. -/
theorem pinned_invariant_counterexample :
    (run [⟨some 'g', 0, 0, false, false, true⟩,
          ⟨none, 3000, 0, false, false, false⟩,
          ⟨some '+', 3000, 0, false, false, false⟩] initState).rs.stepApplied = true ∧
    (run [⟨some 'g', 0, 0, false, false, true⟩,
          ⟨none, 3000, 0, false, false, false⟩,
          ⟨some '+', 3000, 0, false, false, false⟩]
        initState).rs.currentSetpoint ≠ SETPOINT_VOLTAGE := by
  norm_num +decide [run, loopStep, handleCmd, stepPhase, samplePhase, stepGuard,
    applyStep, setSetpointVoltage, clampV, logData, clearDataFile, initState,
    SETPOINT_VOLTAGE, SAMPLING_INTERVAL_MS, INITIAL_WAIT_MS, MAX_FILE_SIZE,
    adcToVoltage]

/-- C1 (amended): the pinned-setpoint invariant — `stepApplied == true`
implies `currentSetpoint == SETPOINT_VOLTAGE` — is preserved by every
sequence of commands and loop ticks in which no manual `+`/`-` setpoint
command is issued while the step is applied (commands issued before the
step fires, or after a reset clears it, are unrestricted). -/
theorem pinned_invariant_no_manual :
    ∀ (inps : List Input) (s : Sys),
      NoManualAfterStep inps s →
      Pinned s → Pinned (run inps s) :=
  fun inps s h hP => run_pinned_cond inps s h hP

/-- C1 witness: the invariant holds after a `go` from the initial state. -/
theorem pinned_invariant_no_manual_witness :
    Pinned (run [⟨some 'g', 5, 0, true, true, true⟩] initState) := by
  apply pinned_invariant_no_manual
  · exact ⟨fun hh => by simp [initState] at hh, trivial⟩
  · intro h
    simp [initState] at h

/-- C2 (as stated) is false: on a sampling tick whose append open fails,
the code still increments `sampleCount` and leaves `loggingEnabled` true
(the file is untouched, so the append did fail). -/
theorem append_open_fail_counterexample :
    (loopStep ⟨none, 500, 0, true, false, true⟩
        ⟨⟨0, 0, 0, true, false, 0⟩, header⟩).rs.sampleCount = 1 ∧
    (loopStep ⟨none, 500, 0, true, false, true⟩
        ⟨⟨0, 0, 0, true, false, 0⟩, header⟩).rs.loggingEnabled = true ∧
    (loopStep ⟨none, 500, 0, true, false, true⟩
        ⟨⟨0, 0, 0, true, false, 0⟩, header⟩).file = header := by
  norm_num +decide [loopStep, handleCmd, stepPhase, samplePhase, stepGuard,
    applyStep, setSetpointVoltage, clampV, logData, clearDataFile,
    SETPOINT_VOLTAGE, SAMPLING_INTERVAL_MS, INITIAL_WAIT_MS, MAX_FILE_SIZE,
    adcToVoltage]

/-- C2 (amended): on a sampling tick whose append open fails (and whose
size pre-check does not trip), nothing is written and there is no retry,
but `sampleCount` is still incremented and `loggingEnabled` stays true —
the code disables logging only on the capacity pre-check, not on an append
open failure. -/
theorem append_open_fail_behavior :
    ∀ (inp : Input) (s : Sys),
      inp.cmd = none → s.rs.loggingEnabled = true →
      SAMPLING_INTERVAL_MS ≤ inp.now - s.rs.lastSampleTime →
      inp.appendOk = false →
      ¬(inp.readOk = true ∧ MAX_FILE_SIZE ≤ s.file.length) →
      (loopStep inp s).file = s.file ∧
      (loopStep inp s).rs.sampleCount = s.rs.sampleCount + 1 ∧
      (loopStep inp s).rs.loggingEnabled = true := by
  intro inp s hcmd hlog hdue hao hcap
  have hhc : handleCmd inp s = s := by
    unfold handleCmd
    rw [hcmd]
  unfold loopStep
  rw [hhc]
  cases hg : stepGuard inp.now s.rs with
  | false =>
    rw [stepPhase_of_guard_false _ _ hg,
      samplePhase_append_fail inp s hlog hdue hao hcap]
    exact ⟨rfl, rfl, hlog⟩
  | true =>
    rw [stepPhase_of_guard_true _ _ hg,
      samplePhase_append_fail inp { s with rs := applyStep s.rs } hlog hdue hao hcap]
    exact ⟨rfl, rfl, hlog⟩

/-- C2 witness: a concrete failing-append sampling tick. -/
theorem append_open_fail_behavior_witness :
    (loopStep ⟨none, 500, 5, true, false, true⟩
        ⟨⟨0, 0, 3, true, false, 0⟩, header⟩).file = header ∧
    (loopStep ⟨none, 500, 5, true, false, true⟩
        ⟨⟨0, 0, 3, true, false, 0⟩, header⟩).rs.sampleCount = 3 + 1 ∧
    (loopStep ⟨none, 500, 5, true, false, true⟩
        ⟨⟨0, 0, 3, true, false, 0⟩, header⟩).rs.loggingEnabled = true :=
  append_open_fail_behavior ⟨none, 500, 5, true, false, true⟩
    ⟨⟨0, 0, 3, true, false, 0⟩, header⟩ rfl rfl (by decide) rfl (by decide)

/-- C5: the BASELINE → STEPPED transition fires on an iteration exactly when
`loggingEnabled && !stepApplied && (now - stepStartTime >= INITIAL_WAIT_MS)`
holds where `loop()` evaluates it; on firing it sets the output to the
clamped target voltage and `stepApplied := true`; and once `stepApplied`
holds it stays set — and the transition never fires — through any input
sequence containing no reset command. -/
theorem step_transition_contract :
    ∀ (inp : Input) (s : Sys) (inps : List Input),
      (stepFires inp s = true ↔
        ((handleCmd inp s).rs.loggingEnabled = true ∧
         (handleCmd inp s).rs.stepApplied = false ∧
         INITIAL_WAIT_MS ≤ inp.now - (handleCmd inp s).rs.stepStartTime)) ∧
      (stepFires inp s = true →
        (loopStep inp s).rs.currentSetpoint = clampV SETPOINT_VOLTAGE ∧
        (loopStep inp s).rs.stepApplied = true) ∧
      (stepFires inp s = false →
        stepPhase inp.now (handleCmd inp s) = handleCmd inp s) ∧
      (s.rs.stepApplied = true →
        (∀ i ∈ inps, i.cmd ≠ some 'r' ∧ i.cmd ≠ some 'R') →
        (run inps s).rs.stepApplied = true ∧ firesDuring inps s = false) := by
  intro inp s inps
  refine ⟨?_, ?_, ?_, ?_⟩
  · unfold stepFires stepGuard
    simp [and_assoc]
  · intro hf
    unfold loopStep
    rw [samplePhase_currentSetpoint, samplePhase_stepApplied,
      stepPhase_of_guard_true _ _ hf]
    exact ⟨rfl, rfl⟩
  · intro hf
    exact stepPhase_of_guard_false _ _ hf
  · intro h hall
    exact run_stepApplied_of_true inps s h hall

/-- C5 witness: a due tick fires the step and pins the output; with the
step applied, a non-reset command sequence never fires it again. -/
theorem step_transition_contract_witness :
    (loopStep ⟨none, 3000, 0, false, false, false⟩
        ⟨⟨0, 0, 0, true, false, 0⟩, header⟩).rs.currentSetpoint =
      clampV SETPOINT_VOLTAGE ∧
    (loopStep ⟨none, 3000, 0, false, false, false⟩
        ⟨⟨0, 0, 0, true, false, 0⟩, header⟩).rs.stepApplied = true ∧
    (run [⟨some 'p', 10, 0, true, true, true⟩]
        ⟨⟨0, 0, 0, true, true, 3/2⟩, header⟩).rs.stepApplied = true ∧
    firesDuring [⟨some 'p', 10, 0, true, true, true⟩]
        ⟨⟨0, 0, 0, true, true, 3/2⟩, header⟩ = false := by
  have h1 := (step_transition_contract ⟨none, 3000, 0, false, false, false⟩
      ⟨⟨0, 0, 0, true, false, 0⟩, header⟩ []).2.1 (by decide)
  have h2 := (step_transition_contract ⟨some 'p', 10, 0, true, true, true⟩
      ⟨⟨0, 0, 0, true, true, 3/2⟩, header⟩
      [⟨some 'p', 10, 0, true, true, true⟩]).2.2.2 rfl
      (by intro i hi
          rw [List.mem_singleton] at hi
          subst hi
          exact ⟨by decide, by decide⟩)
  exact ⟨h1.1, h1.2, h2.1, h2.2⟩

end TempStation
